import Mathlib

/-!
PaperPro side panel: citation formatter, search fallback and mirror URL.

A shallow embedding of `src/sidepanel.js`.

* JavaScript strings are sequences of UTF-16 code units (`JSString`); a string
  literal of the source is written `utf16 "..."`. A Unicode text `t` reaches the
  program as `utf16 t`; a `JSString` may also hold unpaired surrogates.
* A property of a JSON-derived object is `undefined` (missing), `null`, or holds a
  value (`JSField`). The truthiness tests of the source (`if (paper.year)`,
  `paper.venue || ""`) are `truthyNum`, `truthyStr` and `orStr`: the number 0 and
  the empty string are present but falsy; an object or an array is truthy when
  present.
* Code that can throw returns `Except JSString _`, the error carrying its message.
* `String.prototype.toUpperCase` is a parameter of the formatter (the full Unicode
  case mapping belongs to the host); `asciiUpperCase` is its restriction to ASCII
  letters and is used to evaluate the formatter on ASCII names.
* The network is a function from the requested URL to the way `fetch` settles.

Definitions come first; the statements follow.
-/

namespace PaperPro

/-! ## Strings -/

/-- A JavaScript string: its UTF-16 code units, each a natural number. -/
abbrev JSString := List Nat

/-- UTF-16 encoding of one code point. -/
def utf16Char (c : Nat) : JSString :=
  if c < 0x10000 then [c]
  else [0xD800 + (c - 0x10000) / 0x400, 0xDC00 + (c - 0x10000) % 0x400]

/-- The JavaScript string denoted by a source literal. -/
def utf16 (s : String) : JSString :=
  s.toList.flatMap (fun c => utf16Char c.toNat)

/-- ECMAScript `WhiteSpace` and `LineTerminator` code points: the characters that
`String.prototype.trim` strips and that the regular expression class `\s` matches. -/
def isWhiteSpace (c : Nat) : Bool :=
  c == 0x09 || c == 0x0A || c == 0x0B || c == 0x0C || c == 0x0D || c == 0x20 ||
  c == 0xA0 || c == 0x1680 || (0x2000 ≤ c && c ≤ 0x200A) || c == 0x2028 ||
  c == 0x2029 || c == 0x202F || c == 0x205F || c == 0x3000 || c == 0xFEFF

/-- `s.trim()`. -/
def trim (s : JSString) : JSString :=
  (s.dropWhile isWhiteSpace).rdropWhile isWhiteSpace

/-- `s.split(/\s+/)`, scanning from a position that is (`inRun = true`) or is not
inside a run of white space already consumed as a separator. The head of the result
is the rest of the token that is open at this position. -/
def splitFrom : Bool → JSString → List JSString
  | _, [] => [[]]
  | inRun, c :: cs =>
    if isWhiteSpace c then
      if inRun then splitFrom true cs else [] :: splitFrom true cs
    else
      match splitFrom false cs with
      | [] => [[c]]
      | t :: ts => (c :: t) :: ts

/-- `s.split(/\s+/)`: the pieces of `s` between maximal runs of white space; the
empty string gives `[""]`, leading or trailing white space gives an empty piece. -/
def splitWhiteSpace (s : JSString) : List JSString :=
  splitFrom false s

/-- `parts.join(sep)` for an array of strings. -/
def join (sep : JSString) (parts : List JSString) : JSString :=
  sep.intercalate parts

/-- `s.startsWith(p)`. -/
def startsWith (s p : JSString) : Bool :=
  p.isPrefixOf s

/-- `s.endsWith(p)`. -/
def endsWith (s p : JSString) : Bool :=
  p.isSuffixOf s

/-- Restriction of `toUpperCase` to ASCII: `a`..`z` become `A`..`Z`. -/
def asciiUpperCase (s : JSString) : JSString :=
  s.map (fun c => if 97 ≤ c ∧ c ≤ 122 then c - 32 else c)

/-- Decimal numeral of a natural number, as code units. -/
def natToString (n : Nat) : JSString :=
  (Nat.toDigits 10 n).map Char.toNat

/-- Template-literal conversion of an integer-valued number to a string: its decimal
numeral (the form JavaScript uses for every integer of magnitude below 10^21). -/
def numberToString : Int → JSString
  | Int.ofNat n => natToString n
  | Int.negSucc n => utf16 "-" ++ natToString (n + 1)

/-! ## Values read from JSON -/

/-- A property of an object: missing (`undefined`), `null`, or a value. -/
inductive JSField (α : Type) where
  | undefined : JSField α
  | null : JSField α
  | val (v : α) : JSField α
  deriving DecidableEq, Repr

namespace JSField

/-- The property holds neither `undefined` nor `null`. -/
def present {α : Type} : JSField α → Bool
  | val _ => true
  | _ => false

/-- Truthiness of a string-valued property: present and not the empty string. -/
def truthyStr : JSField JSString → Bool
  | val s => !s.isEmpty
  | _ => false

/-- Truthiness of a number-valued property: present and not zero. -/
def truthyNum : JSField Int → Bool
  | val n => n != 0
  | _ => false

/-- Template-literal interpolation of a string-valued property. -/
def interpStr : JSField JSString → JSString
  | undefined => utf16 "undefined"
  | null => utf16 "null"
  | val s => s

/-- Template-literal interpolation of a number-valued property. -/
def interpNum : JSField Int → JSString
  | undefined => utf16 "undefined"
  | null => utf16 "null"
  | val n => numberToString n

/-- The expression `f || d` for a string-valued property `f` and a string `d`. -/
def orStr (f : JSField JSString) (d : JSString) : JSString :=
  match f with
  | val s => if s.isEmpty then d else s
  | _ => d

end JSField

open JSField

/-! ## Paper records -/

/-- An element of `paper.authors`. -/
structure Author where
  name : JSString
  deriving DecidableEq, Repr

/-- The object `paper.journal`. -/
structure Journal where
  name : JSField JSString
  volume : JSField JSString
  pages : JSField JSString
  deriving DecidableEq, Repr

/-- The object `paper.externalIds`. -/
structure ExternalIds where
  ArXiv : JSField JSString
  deriving DecidableEq, Repr

/-- One element of the `data` array of the search response. -/
structure Paper where
  title : JSField JSString
  authors : JSField (List Author)
  year : JSField Int
  venue : JSField JSString
  journal : JSField Journal
  publicationTypes : JSField (List JSString)
  externalIds : JSField ExternalIds
  url : JSField JSString
  deriving DecidableEq, Repr

/-! ## generateGBT7714 -/

/-- Message of the `TypeError` raised when a method is called on `undefined`. -/
def typeErrorMessage : JSString :=
  utf16 "Cannot read properties of undefined"

/-- The callback of `paper.authors.map(...)` (lines 217-223). -/
def formatAuthor (toUpperCase : JSString → JSString) (author : Author) :
    Except JSString JSString :=
  let parts := splitWhiteSpace (trim author.name)
  if parts.length = 1 then
    match parts.head? with
    | some t => .ok (toUpperCase t)
    | none => .error typeErrorMessage
  else
    match parts.getLast? with
    | none => .error typeErrorMessage
    | some last =>
      let lastName := toUpperCase last
      match parts.head? with
      | none => .error typeErrorMessage
      | some first =>
        match first.head? with
        | none => .error typeErrorMessage
        | some c =>
          let firstInitial := toUpperCase [c]
          .ok (lastName ++ utf16 " " ++ firstInitial)

/-- `array.map(f)` for a callback that may throw: the first throw ends the loop. -/
def mapThrowing {α β : Type} (f : α → Except JSString β) : List α → Except JSString (List β)
  | [] => .ok []
  | a :: as =>
    match f a with
    | .error e => .error e
    | .ok b =>
      match mapThrowing f as with
      | .error e => .error e
      | .ok bs => .ok (b :: bs)

/-- The variable `authors` after step 1 (lines 215-230). -/
def authorsText (toUpperCase : JSString → JSString) (paper : Paper) :
    Except JSString JSString :=
  match paper.authors with
  | val as =>
    if as.length > 0 then
      match mapThrowing (formatAuthor toUpperCase) as with
      | .error e => .error e
      | .ok formattedAuthors =>
        if formattedAuthors.length > 3 then
          .ok (join (utf16 ", ") (formattedAuthors.take 3) ++ utf16 ", 等")
        else
          .ok (join (utf16 ", ") formattedAuthors)
    else .ok (utf16 "佚名")
  | _ => .ok (utf16 "佚名")

/-- The variables `type` and `publication` after step 2 (lines 234-245). -/
def typeAndPublication (paper : Paper) : JSString × JSField JSString :=
  match paper.publicationTypes with
  | val types =>
    if types.contains (utf16 "Conference") then
      (utf16 "[C]", val (paper.venue.orStr (utf16 "Conference Proceedings")))
    else if types.contains (utf16 "JournalArticle") then
      (utf16 "[J]",
        match paper.journal with
        | val j => j.name
        | _ => val (paper.venue.orStr (utf16 "")))
    else (utf16 "[J]", val (utf16 ""))
  | _ => (utf16 "[J]", val (utf16 ""))

/-- The value of `paper.externalIds && paper.externalIds.ArXiv` when it is truthy. -/
def arxivId (paper : Paper) : Option JSString :=
  match paper.externalIds with
  | val ids => if ids.ArXiv.truthyStr then some ids.ArXiv.interpStr else none
  | _ => none

/-- The variables `type` and `publication` after the arXiv step (lines 247-251). -/
def typeAndPublicationFinal (paper : Paper) : JSString × JSField JSString :=
  match arxivId paper with
  | some id => (utf16 "[J]", val (utf16 "arXiv preprint arXiv:" ++ id))
  | none => typeAndPublication paper

/-- What lines 257-265 append to `citation`: year, volume, pages and the period. -/
def citationTail (paper : Paper) : JSString :=
  (if paper.year.truthyNum then utf16 ", " ++ paper.year.interpNum else []) ++
  (match paper.journal with
   | val j =>
     if j.volume.truthyStr then
       utf16 ", " ++ j.volume.interpStr ++
         (if j.pages.truthyStr then utf16 ": " ++ j.pages.interpStr else [])
     else []
   | _ => []) ++
  utf16 "."

/-- `generateGBT7714(paper)` (lines 213-267). -/
def generateGBT7714 (toUpperCase : JSString → JSString) (paper : Paper) :
    Except JSString JSString :=
  match authorsText toUpperCase paper with
  | .error e => .error e
  | .ok authors =>
    let tp := typeAndPublicationFinal paper
    .ok (authors ++ utf16 ". " ++ paper.title.interpStr ++ tp.1 ++ utf16 ". " ++
      tp.2.interpStr ++ citationTail paper)

/-! ## Mirror settings and mirror search -/

/-- Line 50: `if (!url.startsWith('http')) url = 'https://' + url`. -/
def withScheme (url : JSString) : JSString :=
  if !startsWith url (utf16 "http") then utf16 "https://" ++ url else url

/-- Line 52: `if (url.endsWith('/')) url = url.slice(0, -1)`. -/
def dropTrailingSlash (url : JSString) : JSString :=
  if endsWith url (utf16 "/") then url.dropLast else url

/-- The value that the click handler of `saveSettings` (lines 48-58) assigns to
`currentMirror` and stores as `customMirror`, for the text of the input field. -/
def saveSettings (input : JSString) : JSString :=
  dropTrailingSlash (withScheme (trim input))

/-- The characters that `encodeURIComponent` leaves as they are: ASCII letters,
digits and `- _ . ! ~ * ' ( )`. -/
def isUnescaped (c : Nat) : Bool :=
  (65 ≤ c && c ≤ 90) || (97 ≤ c && c ≤ 122) || (48 ≤ c && c ≤ 57) ||
  c == 45 || c == 95 || c == 46 || c == 33 || c == 126 || c == 42 || c == 39 ||
  c == 40 || c == 41

/-- Upper-case hexadecimal digit. -/
def hexDigit (n : Nat) : Nat :=
  if n < 10 then 48 + n else 55 + n

/-- The escape `%XX` of one octet. -/
def percentEscape (octet : Nat) : JSString :=
  [37, hexDigit (octet / 16), hexDigit (octet % 16)]

/-- UTF-8 encoding of a code point. -/
def utf8Octets (cp : Nat) : List Nat :=
  if cp < 0x80 then [cp]
  else if cp < 0x800 then [0xC0 + cp / 0x40, 0x80 + cp % 0x40]
  else if cp < 0x10000 then [0xE0 + cp / 0x1000, 0x80 + cp / 0x40 % 0x40, 0x80 + cp % 0x40]
  else [0xF0 + cp / 0x40000, 0x80 + cp / 0x1000 % 0x40, 0x80 + cp / 0x40 % 0x40,
        0x80 + cp % 0x40]

/-- The escapes of the UTF-8 octets of a code point. -/
def escapeCodePoint (cp : Nat) : JSString :=
  (utf8Octets cp).flatMap percentEscape

/-- A leading (high) surrogate code unit. -/
def isLeadSurrogate (c : Nat) : Bool := 0xD800 ≤ c && c ≤ 0xDBFF

/-- A trailing (low) surrogate code unit. -/
def isTrailSurrogate (c : Nat) : Bool := 0xDC00 ≤ c && c ≤ 0xDFFF

/-- Message of the `URIError` that `encodeURIComponent` raises on an unpaired
surrogate. -/
def uriErrorMessage : JSString := utf16 "URI malformed"

/-- The built-in `encodeURIComponent` (ECMAScript `Encode`): unescaped characters are
copied; any other code point, read as a surrogate pair where there is one, is
replaced by the escapes of its UTF-8 octets; an unpaired surrogate throws. -/
def encodeURIComponent : JSString → Except JSString JSString
  | [] => .ok []
  | c :: cs =>
    if isUnescaped c then
      match encodeURIComponent cs with
      | .ok r => .ok (c :: r)
      | .error e => .error e
    else if isLeadSurrogate c then
      match cs with
      | [] => .error uriErrorMessage
      | d :: ds =>
        if isTrailSurrogate d then
          match encodeURIComponent ds with
          | .ok r => .ok (escapeCodePoint ((c - 0xD800) * 0x400 + (d - 0xDC00) + 0x10000) ++ r)
          | .error e => .error e
        else .error uriErrorMessage
    else if isTrailSurrogate c then .error uriErrorMessage
    else
      match encodeURIComponent cs with
      | .ok r => .ok (escapeCodePoint c ++ r)
      | .error e => .error e

/-- `openMirrorSearch(query)` (lines 199-202) with `currentMirror` passed in: the URL
given to `window.open`, or the error thrown before the window is opened. -/
def openMirrorSearch (currentMirror query : JSString) : Except JSString JSString :=
  match encodeURIComponent query with
  | .ok q => .ok (currentMirror ++ utf16 "/scholar?q=" ++ q)
  | .error e => .error e

/-- Standard URL-component encoding of a text, character by character: a character
outside the unreserved set is replaced by the escapes of its UTF-8 bytes. -/
def percentEncode (text : String) : JSString :=
  text.toList.flatMap (fun ch =>
    if isUnescaped ch.toNat then [ch.toNat] else (utf8Octets ch.toNat).flatMap percentEscape)

/-! ## The side panel and handleSearch -/

/-- The type badge on a paper card. -/
inductive Badge where
  | journal : Badge
  | conference : Badge
  | other : Badge
  deriving DecidableEq, Repr

/-- A child element of the results area. -/
inductive Widget where
  | paperCard (paper : Paper) (badge : Badge) (venue : JSString) (citation : JSString) : Widget
  | noResultFallback (query : JSString) : Widget
  | footerLink (query : JSString) : Widget
  deriving DecidableEq, Repr

/-- What the status area shows. -/
inductive StatusContent where
  | empty : StatusContent
  | text (t : JSString) : StatusContent
  | errorSpan (message : JSString) : StatusContent
  deriving DecidableEq, Repr

/-- The two areas of the panel that `handleSearch` writes. -/
structure Panel where
  statusClass : JSString
  status : StatusContent
  results : List Widget
  deriving DecidableEq, Repr

/-- The body of a response. -/
inductive Body where
  | malformed (message : JSString) : Body
  | object (data : JSField (List Paper)) : Body
  deriving DecidableEq, Repr

/-- How `fetch(apiUrl)` settles: rejected (no response), or a response with a status
and a body. -/
inductive FetchResult where
  | rejected (message : JSString) : FetchResult
  | response (status : Nat) (body : Body) : FetchResult
  deriving DecidableEq, Repr

/-- `response.ok`: the status is in the range 200-299. -/
def responseOk (status : Nat) : Bool :=
  200 ≤ status && status ≤ 299

/-- `showStatus(text, isError)` (lines 204-208). -/
def showStatus (panel : Panel) (text : JSString) (isError : Bool) : Panel :=
  { panel with
    statusClass := if isError then utf16 "status-msg error-msg" else utf16 "status-msg",
    status := .text text }

/-- The type badge chosen by `createPaperCard` (lines 120-125). -/
def cardBadge (paper : Paper) : Badge :=
  match paper.publicationTypes with
  | val types =>
    if types.contains (utf16 "JournalArticle") then .journal
    else if types.contains (utf16 "Conference") then .conference
    else .other
  | _ => .other

/-- The venue shown by `createPaperCard` (line 128). -/
def cardVenue (paper : Paper) : JSString :=
  match paper.journal with
  | val j => j.name.interpStr
  | _ => paper.venue.orStr (utf16 "Unknown Venue")

/-- `createPaperCard(paper)` (lines 112-170). -/
def createPaperCard (toUpperCase : JSString → JSString) (paper : Paper) :
    Except JSString Widget :=
  match generateGBT7714 toUpperCase paper with
  | .ok gbString => .ok (.paperCard paper (cardBadge paper) (cardVenue paper) gbString)
  | .error e => .error e

/-- `renderNoResultFallback(query)` (lines 172-184): one more card in the results
area, whose button opens the mirror search for `query`. -/
def renderNoResultFallback (panel : Panel) (query : JSString) : Panel :=
  { panel with results := panel.results ++ [.noResultFallback query] }

/-- `appendFooterLink(query)` (lines 186-197). -/
def appendFooterLink (panel : Panel) (query : JSString) : Panel :=
  { panel with results := panel.results ++ [.footerLink query] }

/-- The click handler of the mirror control of a widget: the URL it opens. -/
def Widget.openMirror (currentMirror : JSString) : Widget → Except JSString JSString
  | .paperCard paper _ _ _ => openMirrorSearch currentMirror paper.title.interpStr
  | .noResultFallback query => openMirrorSearch currentMirror query
  | .footerLink query => openMirrorSearch currentMirror query

/-- The loop `data.data.forEach(...)` of lines 96-98: the panel when the loop ends,
with the message of the error that ended it early, if any. -/
def appendCards (toUpperCase : JSString → JSString) (panel : Panel) :
    List Paper → Panel × Option JSString
  | [] => (panel, none)
  | paper :: papers =>
    match createPaperCard toUpperCase paper with
    | .error e => (panel, some e)
    | .ok card =>
      appendCards toUpperCase { panel with results := panel.results ++ [card] } papers

/-- The URL requested by `handleSearch` for an encoded query (line 76). -/
def apiUrl (encodedQuery : JSString) : JSString :=
  utf16 "https://api.semanticscholar.org/graph/v1/paper/search?query=" ++ encodedQuery ++
  utf16 "&limit=8&fields=title,authors,year,venue,journal,publicationTypes,externalIds,url,abstract"

/-- Message thrown on status 429. -/
def rateLimitedMessage : JSString := utf16 "请求太频繁，请稍后再试"

/-- Message thrown on any other status outside 200-299. -/
def unavailableMessage : JSString := utf16 "服务暂时不可用"

/-- The `try` block of `handleSearch` (lines 73-102): the panel when the block ends,
with the message of the error thrown in it, if any. -/
def searchAttempt (toUpperCase : JSString → JSString) (fetch : JSString → FetchResult)
    (panel : Panel) (query : JSString) : Panel × Option JSString :=
  match encodeURIComponent query with
  | .error e => (panel, some e)
  | .ok encoded =>
    match fetch (apiUrl encoded) with
    | .rejected message => (panel, some message)
    | .response status body =>
      if !responseOk status then
        if status = 429 then (panel, some rateLimitedMessage)
        else (panel, some unavailableMessage)
      else
        match body with
        | .malformed message => (panel, some message)
        | .object data =>
          let cleared := { panel with status := .empty }
          match data with
          | val (paper :: papers) =>
            match appendCards toUpperCase cleared (paper :: papers) with
            | (shown, none) => (appendFooterLink shown query, none)
            | (shown, some e) => (shown, some e)
          | _ => (renderNoResultFallback cleared query, none)

/-- `handleSearch(query)` (lines 64-107), with the network as the function `fetch`:
the panel once the returned promise has settled. The `catch` block handles every
error of the `try` block, so the promise never rejects. -/
def handleSearch (toUpperCase : JSString → JSString) (fetch : JSString → FetchResult)
    (panel : Panel) (query : JSString) : Panel :=
  if query.isEmpty || (trim query).length < 2 then panel
  else
    let started :=
      showStatus { panel with results := [] } (utf16 "正在检索各大数据库 (S2, CrossRef)...") false
    match searchAttempt toUpperCase fetch started query with
    | (done, none) => done
    | (failed, some message) =>
      renderNoResultFallback { failed with status := .errorSpan message } query

/-! ## Vocabulary of the statements -/

/-- No code unit of the string is white space. -/
def WsFree (s : JSString) : Prop := ∀ c ∈ s, isWhiteSpace c = false

/-- Every code unit of the string is white space. -/
def AllWs (s : JSString) : Prop := ∀ c ∈ s, isWhiteSpace c = true

/-- The text after the first token: each further token preceded by its separator. -/
def afterFirst (rest : List (JSString × JSString)) : JSString :=
  (rest.map (fun p => p.1 ++ p.2)).flatten

/-- Every separator is a non-empty run of white space and every token a non-empty
string without white space. -/
def WellSeparated (rest : List (JSString × JSString)) : Prop :=
  ∀ p ∈ rest, p.1 ≠ [] ∧ AllWs p.1 ∧ p.2 ≠ [] ∧ WsFree p.2

instance (s : JSString) : Decidable (WsFree s) :=
  inferInstanceAs (Decidable (∀ c ∈ s, isWhiteSpace c = false))

instance (s : JSString) : Decidable (AllWs s) :=
  inferInstanceAs (Decidable (∀ c ∈ s, isWhiteSpace c = true))

instance (rest : List (JSString × JSString)) : Decidable (WellSeparated rest) :=
  inferInstanceAs (Decidable (∀ p ∈ rest, p.1 ≠ [] ∧ AllWs p.1 ∧ p.2 ≠ [] ∧ WsFree p.2))

deriving instance DecidableEq for Except

/-! ## Sample records -/

/-- A record holding only a title. -/
def titleOnly (title : JSString) : Paper :=
  { title := val title, authors := undefined, year := undefined, venue := undefined,
    journal := undefined, publicationTypes := undefined, externalIds := undefined,
    url := undefined }

/-- A record with five authors. -/
def fiveAuthors : Paper :=
  { titleOnly (utf16 "T") with
    authors := val [⟨utf16 "ada lovelace"⟩, ⟨utf16 "Plato"⟩, ⟨utf16 "Alan M Turing"⟩,
      ⟨utf16 "Grace Hopper"⟩, ⟨utf16 "Kurt Godel"⟩] }

/-- A conference paper whose venue is the empty string. -/
def conferenceEmptyVenue : Paper :=
  { titleOnly (utf16 "T") with
    publicationTypes := val [utf16 "Conference"], venue := val (utf16 "") }

/-- A journal article whose `journal` object has a volume but no name. -/
def journalWithoutName : Paper :=
  { titleOnly (utf16 "T") with
    publicationTypes := val [utf16 "JournalArticle"], venue := val (utf16 "Nature"),
    journal := val { name := undefined, volume := val (utf16 "12"), pages := undefined } }

/-- A conference paper that also has an arXiv identifier. -/
def neuripsOnArxiv : Paper :=
  { titleOnly (utf16 "T") with
    publicationTypes := val [utf16 "Conference"], venue := val (utf16 "NeurIPS"),
    externalIds := val { ArXiv := val (utf16 "2101.00001") } }

/-- A conference paper whose arXiv identifier is the empty string. -/
def neuripsEmptyArxiv : Paper :=
  { titleOnly (utf16 "T") with
    publicationTypes := val [utf16 "Conference"], venue := val (utf16 "NeurIPS"),
    externalIds := val { ArXiv := val (utf16 "") } }

/-- A record whose journal has a volume and pages. -/
def volumeAndPages : Paper :=
  { titleOnly (utf16 "T") with
    journal := val { name := undefined, volume := val (utf16 "12"),
                     pages := val (utf16 "100-110") } }

/-- A record whose journal has pages but no volume. -/
def pagesOnly : Paper :=
  { titleOnly (utf16 "T") with
    journal := val { name := undefined, volume := undefined,
                     pages := val (utf16 "100-110") } }

/-- A record whose year is the number 0. -/
def yearZero : Paper :=
  { titleOnly (utf16 "T") with year := val 0 }

/-- A record whose journal volume is the empty string. -/
def emptyVolume : Paper :=
  { titleOnly (utf16 "T") with
    year := val 2020,
    journal := val { name := val (utf16 "N"), volume := val (utf16 ""),
                     pages := val (utf16 "100-110") } }

/-! ## The specification's wording -/

/-- The value of `externalIds.ArXiv` when it is present. -/
def arxivValue (paper : Paper) : Option JSString :=
  match paper.externalIds with
  | val ids =>
    match ids.ArXiv with
    | val id => some id
    | _ => none
  | _ => none

/-- The elements of `publicationTypes`, none when it is absent. -/
def typesOf (paper : Paper) : List JSString :=
  match paper.publicationTypes with
  | val types => types
  | _ => []

/-- The venue field, or `fallback` when it is absent. -/
def venueOr (paper : Paper) (fallback : JSString) : JSString :=
  match paper.venue with
  | val v => v
  | _ => fallback

/-- The venue field when it is present and not empty, else `fallback`. -/
def nonEmptyVenueOr (paper : Paper) (fallback : JSString) : JSString :=
  match paper.venue with
  | val v => if v = [] then fallback else v
  | _ => fallback

/-- The specification's journal venue: `journal.name` if present, else the venue
field, else the empty string. -/
def specJournalVenue (paper : Paper) : JSString :=
  match paper.journal with
  | val j =>
    match j.name with
    | val n => n
    | _ => venueOr paper (utf16 "")
  | _ => venueOr paper (utf16 "")

/-- Step 2 of the specification as worded: the type tag and the venue. -/
def specTagVenue (paper : Paper) : JSString × JSString :=
  if utf16 "Conference" ∈ typesOf paper then
    (utf16 "[C]", venueOr paper (utf16 "Conference Proceedings"))
  else if utf16 "JournalArticle" ∈ typesOf paper then
    (utf16 "[J]", specJournalVenue paper)
  else (utf16 "[J]", utf16 "")

/-- Step 2 with the conference venue taken from the venue field only when that
field is present and not empty. -/
def specTagVenueNonEmpty (paper : Paper) : JSString × JSString :=
  if utf16 "Conference" ∈ typesOf paper then
    (utf16 "[C]", nonEmptyVenueOr paper (utf16 "Conference Proceedings"))
  else if utf16 "JournalArticle" ∈ typesOf paper then
    (utf16 "[J]", specJournalVenue paper)
  else (utf16 "[J]", utf16 "")

/-- The record is a journal article (and not a conference paper) whose `journal`
object is present without a name. -/
def journalNameMissing (paper : Paper) : Bool :=
  !(typesOf paper).contains (utf16 "Conference") &&
  (typesOf paper).contains (utf16 "JournalArticle") &&
  (match paper.journal with
   | val j => !j.name.present
   | _ => false)

/-- The tag and the venue text that `generateGBT7714` puts into the citation. -/
def usedTagVenue (paper : Paper) : JSString × JSString :=
  ((typeAndPublicationFinal paper).1, (typeAndPublicationFinal paper).2.interpStr)

/-- The citation assembled from an author segment, a tag, a venue and a tail. -/
def assemble (authors : JSString) (paper : Paper) (tag venue tail : JSString) : JSString :=
  authors ++ utf16 ". " ++ paper.title.interpStr ++ tag ++ utf16 ". " ++ venue ++ tail

/-- The tail of the citation as the specification words it: year, volume and pages
are appended when present. -/
def specCitationTail (paper : Paper) : JSString :=
  (match paper.year with
   | val y => utf16 ", " ++ numberToString y
   | _ => []) ++
  (match paper.journal with
   | val j =>
     match j.volume with
     | val v =>
       utf16 ", " ++ v ++
         (match j.pages with
          | val pg => utf16 ": " ++ pg
          | _ => [])
     | _ => []
   | _ => []) ++
  utf16 "."

/-- A string-valued property with the empty string regarded as absent. -/
def blankAsAbsent : JSField JSString → JSField JSString
  | val s => if s = [] then undefined else val s
  | f => f

/-- A number-valued property with the number 0 regarded as absent. -/
def zeroAsAbsent : JSField Int → JSField Int
  | val y => if y = 0 then undefined else val y
  | f => f

/-- A journal object with an empty volume or pages string regarded as absent. -/
def journalBlanksAsAbsent : JSField Journal → JSField Journal
  | val j => val { j with volume := blankAsAbsent j.volume, pages := blankAsAbsent j.pages }
  | f => f

/-- The record with a year of 0 and an empty volume or pages string regarded as
absent. -/
def falsyAsAbsent (paper : Paper) : Paper :=
  { paper with
    year := zeroAsAbsent paper.year,
    journal := journalBlanksAsAbsent paper.journal }

/-- A panel before any search. -/
def blankPanel : Panel :=
  { statusClass := utf16 "status-msg", status := .empty, results := [] }

/-- A network on which every request is answered with status 429. -/
def alwaysRateLimited : JSString → FetchResult :=
  fun _ => .response 429 (.malformed [])

/-! ## Splitting and trimming -/

theorem splitFrom_ne_nil (b : Bool) (s : JSString) : splitFrom b s ≠ [] := by
  induction s generalizing b with
  | nil => simp [splitFrom]
  | cons c cs ih =>
    unfold splitFrom
    by_cases hc : isWhiteSpace c = true
    · cases b <;> simp [hc, ih]
    · simp only [hc]
      cases h : splitFrom false cs <;> simp

theorem splitFrom_cons_nonws (b : Bool) (c : Nat) (cs : JSString)
    (hc : isWhiteSpace c = false) :
    splitFrom b (c :: cs) = (c :: (splitFrom false cs).headD []) :: (splitFrom false cs).tail := by
  have hne := splitFrom_ne_nil false cs
  cases h : splitFrom false cs with
  | nil => exact absurd h hne
  | cons t ts => simp [splitFrom, hc, h]

theorem splitFrom_cons_ws (c : Nat) (cs : JSString) (hc : isWhiteSpace c = true) :
    splitFrom false (c :: cs) = [] :: splitFrom true cs := by
  simp [splitFrom, hc]

theorem splitFrom_nonws (b : Bool) (c : Nat) (cs : JSString) (hc : isWhiteSpace c = false) :
    splitFrom b (c :: cs) = splitFrom false (c :: cs) := by
  cases b <;> simp [splitFrom, hc]

theorem splitFrom_allWs (w s : JSString) (hw : AllWs w) :
    splitFrom true (w ++ s) = splitFrom true s := by
  induction w with
  | nil => rfl
  | cons c cs ih =>
    have hc : isWhiteSpace c = true := hw c (List.mem_cons_self _ _)
    have hcs : AllWs cs := fun d hd => hw d (List.mem_cons_of_mem _ hd)
    simp [splitFrom, hc, ih hcs]

theorem splitFrom_wsFree_append (t s : JSString) (ht : WsFree t) :
    splitFrom false (t ++ s) =
      (t ++ (splitFrom false s).headD []) :: (splitFrom false s).tail := by
  induction t with
  | nil =>
    cases h : splitFrom false s with
    | nil => exact absurd h (splitFrom_ne_nil _ _)
    | cons a as => simp [h]
  | cons c cs ih =>
    have hc : isWhiteSpace c = false := ht c (List.mem_cons_self _ _)
    have hcs : WsFree cs := fun d hd => ht d (List.mem_cons_of_mem _ hd)
    rw [List.cons_append, splitFrom_cons_nonws _ _ _ hc, ih hcs]
    simp

theorem splitFrom_wsFree (t : JSString) (ht : WsFree t) : splitFrom false t = [t] := by
  have := splitFrom_wsFree_append t [] ht
  simpa [splitFrom] using this

theorem splitFrom_tokens (t : JSString) (rest : List (JSString × JSString))
    (ht : WsFree t) (hr : WellSeparated rest) :
    splitFrom false (t ++ afterFirst rest) = t :: rest.map Prod.snd := by
  induction rest generalizing t with
  | nil => simpa [afterFirst] using splitFrom_wsFree t ht
  | cons p ps ih =>
    obtain ⟨w, u⟩ := p
    have hp := hr (w, u) (List.mem_cons_self _ _)
    have hps : WellSeparated ps := fun q hq => hr q (List.mem_cons_of_mem _ hq)
    obtain ⟨hw0, hw, hu0, hu⟩ := hp
    simp only at hw0 hw hu0 hu
    have hsplit : splitFrom false (w ++ (u ++ afterFirst ps)) = [] :: u :: ps.map Prod.snd := by
      cases w with
      | nil => exact absurd rfl hw0
      | cons c cs =>
        have hc : isWhiteSpace c = true := hw c (List.mem_cons_self _ _)
        have hcs : AllWs cs := fun d hd => hw d (List.mem_cons_of_mem _ hd)
        cases u with
        | nil => exact absurd rfl hu0
        | cons d ds =>
          have hd : isWhiteSpace d = false := hu d (List.mem_cons_self _ _)
          have h1 : splitFrom true (cs ++ (d :: ds ++ afterFirst ps))
              = (d :: ds) :: ps.map Prod.snd := by
            rw [splitFrom_allWs _ _ hcs]
            rw [List.cons_append, splitFrom_nonws true d _ hd, ← List.cons_append]
            exact ih (d :: ds) hu hps
          rw [List.cons_append, splitFrom_cons_ws _ _ hc, h1]
    have : afterFirst ((w, u) :: ps) = w ++ (u ++ afterFirst ps) := by
      simp [afterFirst]
    rw [this, splitFrom_wsFree_append _ _ ht, hsplit]
    simp

theorem trim_padded (pre core post : JSString) (hpre : AllWs pre) (hpost : AllWs post)
    (hhead : ∀ c, core.head? = some c → isWhiteSpace c = false)
    (hlast : ∀ c, core.getLast? = some c → isWhiteSpace c = false) :
    trim (pre ++ core ++ post) = core := by
  unfold trim
  rw [List.append_assoc, List.dropWhile_append_of_pos hpre]
  rcases List.eq_nil_or_concat core with h | ⟨init, c, h⟩
  · subst h
    have h1 : List.dropWhile isWhiteSpace post = [] := by
      rw [List.dropWhile_eq_nil_iff]; exact hpost
    simp [h1]
  · have hd : List.dropWhile isWhiteSpace (core ++ post) = core ++ post := by
      cases hcore : core with
      | nil => simp [h] at hcore
      | cons d ds =>
        have hdws : isWhiteSpace d = false := hhead d (by simp [hcore])
        simp [List.dropWhile_cons, hdws]
    have hc : isWhiteSpace c = false := hlast c (by simp [h])
    rw [hd, h]
    clear hd hhead hlast h
    induction post using List.reverseRecOn with
    | nil => simp [List.rdropWhile_concat_neg, hc]
    | append_singleton ps p ih =>
      have hp : isWhiteSpace p = true := hpost p (by simp)
      have hps : AllWs ps := fun d hd => hpost d (by simp [hd])
      rw [← List.append_assoc, List.rdropWhile_concat_pos _ _ _ hp]
      exact ih hps

theorem trim_head_not_ws (s : JSString) (c : Nat) (h : (trim s).head? = some c) :
    isWhiteSpace c = false := by
  unfold trim at h
  obtain ⟨t, ht⟩ := List.rdropWhile_prefix isWhiteSpace (l := s.dropWhile isWhiteSpace)
  have hnot := List.head?_dropWhile_not isWhiteSpace s
  cases hr : List.rdropWhile isWhiteSpace (List.dropWhile isWhiteSpace s) with
  | nil => simp [hr] at h
  | cons d ds =>
    rw [hr] at h ht
    simp at h
    subst h
    rw [← ht] at hnot
    simpa using hnot

theorem splitWhiteSpace_trim_cases (s : JSString) :
    splitWhiteSpace (trim s) = [[]] ∨
      ∃ c t ts, splitWhiteSpace (trim s) = (c :: t) :: ts := by
  cases h : trim s with
  | nil => left; rfl
  | cons c cs =>
    right
    have hc : isWhiteSpace c = false := trim_head_not_ws s c (by simp [h])
    exact ⟨c, _, _, splitFrom_cons_nonws false c cs hc⟩

theorem formatAuthor_total (toUpperCase : JSString → JSString) (author : Author) :
    ∃ r, formatAuthor toUpperCase author = .ok r := by
  unfold formatAuthor
  rcases splitWhiteSpace_trim_cases author.name with h | ⟨c, t, ts, h⟩
  · simp [h]
  · simp only [h]
    by_cases hl : ((c :: t) :: ts).length = 1
    · simp [hl]
    · simp only [hl]
      cases hts : ((c :: t) :: ts).getLast? with
      | none => simp at hts
      | some l => simp

/-! ## The citation formatter -/

theorem mapThrowing_total {α β : Type} (f : α → Except JSString β)
    (hf : ∀ a, ∃ b, f a = .ok b) (as : List α) :
    ∃ bs, mapThrowing f as = .ok bs ∧ List.Forall₂ (fun a b => f a = .ok b) as bs := by
  induction as with
  | nil => exact ⟨[], rfl, List.Forall₂.nil⟩
  | cons a as ih =>
    obtain ⟨b, hb⟩ := hf a
    obtain ⟨bs, hbs, hall⟩ := ih
    exact ⟨b :: bs, by simp [mapThrowing, hb, hbs], List.Forall₂.cons hb hall⟩

theorem afterFirst_concat (rest : List (JSString × JSString)) (w u : JSString) :
    afterFirst (rest ++ [(w, u)]) = afterFirst rest ++ w ++ u := by
  simp [afterFirst]

theorem authorsText_total (toUpperCase : JSString → JSString) (paper : Paper) :
    ∃ a, authorsText toUpperCase paper = .ok a := by
  unfold authorsText
  cases paper.authors with
  | undefined => exact ⟨_, rfl⟩
  | null => exact ⟨_, rfl⟩
  | val as =>
    obtain ⟨bs, hbs, -⟩ :=
      mapThrowing_total (formatAuthor toUpperCase) (formatAuthor_total toUpperCase) as
    simp only [hbs]
    split_ifs <;> exact ⟨_, rfl⟩

/-- What the map callback returns. A name that is one white-space-free token `t`
(possibly padded with white space) is formatted as `toUpperCase t`; a name made of
two or more tokens separated by white space is formatted as the upper-cased last
token, a space, and `toUpperCase` of the first UTF-16 code unit of the first token,
the middle tokens being dropped. With the ASCII case mapping, "Plato" gives "PLATO"
and "ada lovelace" gives "LOVELACE A". -/
theorem formatAuthor_tokens :
    (∀ (toUpperCase : JSString → JSString) (pre t post : JSString),
      AllWs pre → AllWs post → WsFree t →
      formatAuthor toUpperCase ⟨pre ++ t ++ post⟩ = .ok (toUpperCase t)) ∧
    (∀ (toUpperCase : JSString → JSString) (pre post : JSString) (c : Nat)
      (t1 : JSString) (mid : List (JSString × JSString)) (w tk : JSString),
      AllWs pre → AllWs post → WsFree (c :: t1) → WellSeparated (mid ++ [(w, tk)]) →
      formatAuthor toUpperCase ⟨pre ++ ((c :: t1) ++ afterFirst (mid ++ [(w, tk)])) ++ post⟩
        = .ok (toUpperCase tk ++ utf16 " " ++ toUpperCase [c])) ∧
    formatAuthor asciiUpperCase ⟨utf16 "Plato"⟩ = .ok (utf16 "PLATO") ∧
    formatAuthor asciiUpperCase ⟨utf16 "ada lovelace"⟩ = .ok (utf16 "LOVELACE A") := by
  refine ⟨?_, ?_, by decide, by decide⟩
  · intro up pre t post hpre hpost ht
    have htrim : trim (pre ++ t ++ post) = t := by
      apply trim_padded pre t post hpre hpost
      · intro c hc
        exact ht c (List.mem_of_mem_head? hc)
      · intro c hc
        exact ht c (List.mem_of_getLast?_eq_some hc)
    simp only [formatAuthor, htrim, splitWhiteSpace, splitFrom_wsFree t ht]
    simp
  · intro up pre post c t1 mid w tk hpre hpost ht hsep
    have hlastTok := hsep (w, tk) (by simp)
    obtain ⟨-, -, htk0, htk⟩ := hlastTok
    simp only at htk0 htk
    have htrim : trim (pre ++ ((c :: t1) ++ afterFirst (mid ++ [(w, tk)])) ++ post)
        = (c :: t1) ++ afterFirst (mid ++ [(w, tk)]) := by
      apply trim_padded pre _ post hpre hpost
      · intro d hd
        simp at hd
        subst hd
        exact ht _ (List.mem_cons_self _ _)
      · intro d hd
        rw [afterFirst_concat, ← List.append_assoc, ← List.append_assoc,
          List.getLast?_append_of_ne_nil _ htk0] at hd
        exact htk d (List.mem_of_getLast?_eq_some hd)
    have hsplit := splitFrom_tokens (c :: t1) (mid ++ [(w, tk)]) ht hsep
    have hlast : ((c :: t1) :: List.map Prod.snd (mid ++ [(w, tk)])).getLast? = some tk := by
      rw [List.map_append, ← List.cons_append]
      exact List.getLast?_concat _
    simp only [formatAuthor, htrim, splitWhiteSpace, hsplit, hlast]
    simp

/-- At a concrete name: leading, trailing and repeated white space is ignored and
the middle token is dropped. -/
theorem formatAuthor_tokens_witness :
    formatAuthor asciiUpperCase ⟨utf16 " ada  byron lovelace "⟩ = .ok (utf16 "LOVELACE A") :=
  formatAuthor_tokens.2.1 asciiUpperCase (utf16 " ") (utf16 " ") 97 (utf16 "da")
    [(utf16 "  ", utf16 "byron")] (utf16 " ") (utf16 "lovelace")
    (by decide) (by decide) (by decide) (by decide)

/-- C5 at names whose first token starts with a character outside the Basic
Multilingual Plane. The first character of "𝒜da lovelace" is 𝒜 (U+1D49C, the two
code units 0xD835 0xDC9C), but `parts[0][0]` is the first code unit alone: for every
`toUpperCase` the initial is `toUpperCase` of the unpaired surrogate 0xD835, and with
a case mapping that leaves both unchanged the author is "LOVELACE " followed by
0xD835, not "LOVELACE 𝒜". Likewise "𠮷野 家" gives "家 " followed by 0xD842. -/
theorem formatAuthor_initial_is_code_unit :
    (∀ toUpperCase : JSString → JSString,
      formatAuthor toUpperCase ⟨utf16 "𝒜da lovelace"⟩ =
        .ok (toUpperCase (utf16 "lovelace") ++ utf16 " " ++ toUpperCase [0xD835])) ∧
    utf16 "𝒜" = [0xD835, 0xDC9C] ∧
    isLeadSurrogate 0xD835 = true ∧
    formatAuthor asciiUpperCase ⟨utf16 "𝒜da lovelace"⟩ =
      .ok (utf16 "LOVELACE " ++ [0xD835]) ∧
    formatAuthor asciiUpperCase ⟨utf16 "𝒜da lovelace"⟩ ≠
      .ok (asciiUpperCase (utf16 "lovelace") ++ utf16 " " ++ asciiUpperCase (utf16 "𝒜")) ∧
    formatAuthor asciiUpperCase ⟨utf16 "𠮷野 家"⟩ = .ok (utf16 "家 " ++ [0xD842]) ∧
    formatAuthor asciiUpperCase ⟨utf16 "𠮷野 家"⟩ ≠
      .ok (asciiUpperCase (utf16 "家") ++ utf16 " " ++ asciiUpperCase (utf16 "𠮷")) := by
  refine ⟨fun toUpperCase => ?_, by decide, by decide, by decide, by decide, by decide,
    by decide⟩
  exact formatAuthor_tokens.2.1 toUpperCase [] [] 0xD835 (0xDC9C :: utf16 "da") []
    (utf16 " ") (utf16 "lovelace") (by decide) (by decide) (by decide) (by decide)

/-- C7. `generateGBT7714` returns a string for every record, whatever fields are
missing and whatever the author names are; and when a trimmed name splits into two
or more pieces, the first piece is not empty, so its first character exists. -/
theorem generateGBT7714_total (toUpperCase : JSString → JSString) (paper : Paper) :
    (∃ citation, generateGBT7714 toUpperCase paper = .ok citation) ∧
    (∀ name : JSString, 2 ≤ (splitWhiteSpace (trim name)).length →
      ∃ c t, (splitWhiteSpace (trim name)).head? = some (c :: t)) := by
  constructor
  · obtain ⟨a, ha⟩ := authorsText_total toUpperCase paper
    rw [generateGBT7714, ha]
    exact ⟨_, rfl⟩
  · intro name hlen
    rcases splitWhiteSpace_trim_cases name with h | ⟨c, t, ts, h⟩
    · rw [h] at hlen
      simp at hlen
    · exact ⟨c, t, by rw [h]; rfl⟩

/-- C7 at concrete inputs: an empty name, a white-space-only name and a padded name
all format without failure. -/
theorem generateGBT7714_total_witness :
    (∃ citation, generateGBT7714 asciiUpperCase
      { titleOnly (utf16 "T") with
        authors := val [⟨utf16 ""⟩, ⟨utf16 "  "⟩, ⟨utf16 " ada  lovelace "⟩] }
        = .ok citation) ∧
    ∃ c t, (splitWhiteSpace (trim (utf16 " ada  lovelace "))).head? = some (c :: t) :=
  ⟨(generateGBT7714_total asciiUpperCase _).1,
   (generateGBT7714_total asciiUpperCase (titleOnly [])).2 (utf16 " ada  lovelace ") (by decide)⟩

/-- C1. A record in which only the title is present is formatted as the anonymous
placeholder, the title, the default tag `[J]`, an empty venue, no year, volume or
pages, and the final period. -/
theorem generateGBT7714_title_only (toUpperCase : JSString → JSString) (paper : Paper)
    (title : JSString) (htitle : paper.title = val title)
    (hauthors : paper.authors.present = false) (hyear : paper.year.present = false)
    (_hvenue : paper.venue.present = false) (hjournal : paper.journal.present = false)
    (htypes : paper.publicationTypes.present = false)
    (hids : paper.externalIds.present = false) :
    generateGBT7714 toUpperCase paper =
      .ok (utf16 "佚名. " ++ title ++ utf16 "[J]. " ++ utf16 ".") := by
  have hA : authorsText toUpperCase paper = .ok (utf16 "佚名") := by
    unfold authorsText
    cases h : paper.authors <;> simp_all [present]
  have hT : typeAndPublicationFinal paper = (utf16 "[J]", val (utf16 "")) := by
    unfold typeAndPublicationFinal arxivId typeAndPublication
    cases h : paper.externalIds <;> cases h2 : paper.publicationTypes <;> simp_all [present]
  have hC : citationTail paper = utf16 "." := by
    unfold citationTail
    cases h : paper.year <;> cases h2 : paper.journal <;> simp_all [present, truthyNum]
  have h1 : utf16 "佚名. " = utf16 "佚名" ++ utf16 ". " := by decide
  have h2 : utf16 "[J]. " = utf16 "[J]" ++ utf16 ". " := by decide
  have h3 : utf16 "" = [] := by decide
  simp only [generateGBT7714, hA, hT, hC, htitle, interpStr, h1, h2, h3, List.append_assoc,
    List.nil_append]

/-- C1 at a concrete record. -/
theorem generateGBT7714_title_only_witness :
    generateGBT7714 asciiUpperCase (titleOnly (utf16 "On Computable Numbers")) =
      .ok (utf16 "佚名. " ++ utf16 "On Computable Numbers" ++ utf16 "[J]. " ++ utf16 ".") :=
  generateGBT7714_title_only asciiUpperCase _ _ rfl rfl rfl rfl rfl rfl rfl

/-- C4. For a record with `n ≥ 1` authors, the citation starts with the formatted
names of the first three authors (of all of them when `n ≤ 3`), in source order,
joined by ", ", followed by ", 等" exactly when `n > 3`; then comes ". " and the
rest of the citation. Authors after the third do not contribute. -/
theorem generateGBT7714_authors (toUpperCase : JSString → JSString) (paper : Paper)
    (authors : List Author) (hauthors : paper.authors = val authors)
    (hn : 1 ≤ authors.length) :
    ∃ formatted : List JSString,
      List.Forall₂ (fun a f => formatAuthor toUpperCase a = .ok f) (authors.take 3) formatted ∧
      generateGBT7714 toUpperCase paper = .ok
        ((if 3 < authors.length then join (utf16 ", ") formatted ++ utf16 ", 等"
          else join (utf16 ", ") formatted) ++
        utf16 ". " ++ paper.title.interpStr ++ (typeAndPublicationFinal paper).1 ++
        utf16 ". " ++ (typeAndPublicationFinal paper).2.interpStr ++ citationTail paper) := by
  obtain ⟨fs, hfs, hall⟩ :=
    mapThrowing_total (formatAuthor toUpperCase) (formatAuthor_total toUpperCase) authors
  have hlen : fs.length = authors.length := hall.length_eq.symm
  refine ⟨fs.take 3, List.forall₂_take 3 hall, ?_⟩
  have hpos : authors.length > 0 := hn
  have hA : authorsText toUpperCase paper = .ok
      (if 3 < authors.length then join (utf16 ", ") (fs.take 3) ++ utf16 ", 等"
        else join (utf16 ", ") (fs.take 3)) := by
    simp only [authorsText, hauthors, hpos, if_true, hfs, hlen]
    by_cases h3 : authors.length > 3
    · simp only [h3, if_true]
    · simp only [h3, if_false]
      rw [List.take_of_length_le (by omega)]
  simp only [generateGBT7714, hA]

/-- C4 at a record with five authors: three names and ", 等". -/
theorem generateGBT7714_authors_witness :
    generateGBT7714 asciiUpperCase fiveAuthors =
      .ok (utf16 "LOVELACE A, PLATO, TURING A, 等. T[J]. .") ∧
    ∃ formatted : List JSString,
      List.Forall₂ (fun a f => formatAuthor asciiUpperCase a = .ok f)
        [⟨utf16 "ada lovelace"⟩, ⟨utf16 "Plato"⟩, ⟨utf16 "Alan M Turing"⟩] formatted ∧
      generateGBT7714 asciiUpperCase fiveAuthors = .ok
        (join (utf16 ", ") formatted ++ utf16 ", 等" ++ utf16 ". " ++ utf16 "T" ++
          utf16 "[J]" ++ utf16 ". " ++ utf16 "" ++ utf16 ".") :=
  ⟨by decide, generateGBT7714_authors asciiUpperCase fiveAuthors
    [⟨utf16 "ada lovelace"⟩, ⟨utf16 "Plato"⟩, ⟨utf16 "Alan M Turing"⟩,
      ⟨utf16 "Grace Hopper"⟩, ⟨utf16 "Kurt Godel"⟩] rfl (by decide)⟩

theorem generateGBT7714_assemble (toUpperCase : JSString → JSString) (paper : Paper) :
    ∃ authors, authorsText toUpperCase paper = .ok authors ∧
      generateGBT7714 toUpperCase paper = .ok
        (assemble authors paper (usedTagVenue paper).1 (usedTagVenue paper).2
          (citationTail paper)) := by
  obtain ⟨authors, hA⟩ := authorsText_total toUpperCase paper
  exact ⟨authors, hA, by simp [generateGBT7714, hA, assemble, usedTagVenue]⟩

theorem arxivId_eq_none (paper : Paper) (h : ∀ id, arxivValue paper = some id → id = []) :
    arxivId paper = none := by
  unfold arxivId
  unfold arxivValue at h
  cases hids : paper.externalIds with
  | undefined => rfl
  | null => rfl
  | val ids =>
    simp only [hids] at h
    cases hA : ids.ArXiv with
    | undefined => simp [truthyStr, hA]
    | null => simp [truthyStr, hA]
    | val id =>
      simp only [hA] at h
      have := h id rfl
      subst this
      simp [truthyStr, hA]

theorem contains_eq_decide (types : List JSString) (x : JSString) :
    types.contains x = decide (x ∈ types) := by
  simp [List.contains]

theorem usedTagVenue_step2 (paper : Paper) (harxiv : ∀ id, arxivValue paper = some id → id = [])
    (hname : journalNameMissing paper = false) :
    usedTagVenue paper = specTagVenueNonEmpty paper := by
  have h0 := arxivId_eq_none paper harxiv
  unfold usedTagVenue typeAndPublicationFinal
  rw [h0]
  unfold journalNameMissing at hname
  unfold typeAndPublication specTagVenueNonEmpty typesOf nonEmptyVenueOr specJournalVenue venueOr
  unfold typesOf at hname
  have e0 : utf16 "" = [] := by decide
  cases hT : paper.publicationTypes with
  | undefined => simp [interpStr]
  | null => simp [interpStr]
  | val types =>
    rw [hT] at hname
    simp only [contains_eq_decide, decide_eq_true_eq] at hname ⊢
    by_cases hC : utf16 "Conference" ∈ types
    · simp only [hC, if_true]
      cases hV : paper.venue with
      | undefined => simp [orStr, interpStr]
      | null => simp [orStr, interpStr]
      | val v => by_cases hv : v = [] <;> simp [orStr, interpStr, hv]
    · by_cases hJ : utf16 "JournalArticle" ∈ types
      · simp only [hC, hJ, if_true, if_false]
        cases hj : paper.journal with
        | val j =>
          rw [hj] at hname
          cases hn : j.name with
          | val n => simp [interpStr, hn]
          | undefined => simp [hC, hJ, hn, present] at hname
          | null => simp [hC, hJ, hn, present] at hname
        | undefined =>
          cases hV : paper.venue with
          | val v => by_cases hv : v = [] <;> simp [orStr, interpStr, hv, e0]
          | undefined => simp [orStr, interpStr]
          | null => simp [orStr, interpStr]
        | null =>
          cases hV : paper.venue with
          | val v => by_cases hv : v = [] <;> simp [orStr, interpStr, hv, e0]
          | undefined => simp [orStr, interpStr]
          | null => simp [orStr, interpStr]
      · simp [hC, hJ, interpStr]

/-- C2 fails as stated. A conference paper whose venue field is the empty string is
formatted with the venue "Conference Proceedings", while the venue field itself is
the empty string; and a journal article whose `journal` object has no name is
formatted with the text "undefined" as venue, while the venue field is "Nature". -/
theorem specTagVenue_counterexample :
    (arxivValue conferenceEmptyVenue = none ∧
      usedTagVenue conferenceEmptyVenue = (utf16 "[C]", utf16 "Conference Proceedings") ∧
      specTagVenue conferenceEmptyVenue = (utf16 "[C]", utf16 "") ∧
      usedTagVenue conferenceEmptyVenue ≠ specTagVenue conferenceEmptyVenue ∧
      generateGBT7714 asciiUpperCase conferenceEmptyVenue =
        .ok (utf16 "佚名. T[C]. Conference Proceedings.")) ∧
    (arxivValue journalWithoutName = none ∧
      usedTagVenue journalWithoutName = (utf16 "[J]", utf16 "undefined") ∧
      specTagVenue journalWithoutName = (utf16 "[J]", utf16 "Nature") ∧
      usedTagVenue journalWithoutName ≠ specTagVenue journalWithoutName ∧
      generateGBT7714 asciiUpperCase journalWithoutName =
        .ok (utf16 "佚名. T[J]. undefined, 12.")) := by
  decide

/-- C2, amended. For a record without an arXiv identifier (or with an empty one),
other than a journal article whose `journal` object lacks a name: a record whose
publicationTypes contain "Conference" gets the tag `[C]` and as venue the venue
field when that is present and not empty, else "Conference Proceedings"; otherwise
a record whose publicationTypes contain "JournalArticle" gets `[J]` and as venue
`journal.name` if present, else the venue field, else the empty string; any other
record gets `[J]` and an empty venue. The citation is assembled from that pair. -/
theorem usedTagVenue_spec (toUpperCase : JSString → JSString) (paper : Paper)
    (harxiv : ∀ id, arxivValue paper = some id → id = [])
    (hname : journalNameMissing paper = false) :
    usedTagVenue paper = specTagVenueNonEmpty paper ∧
    ∃ authors, authorsText toUpperCase paper = .ok authors ∧
      generateGBT7714 toUpperCase paper = .ok
        (assemble authors paper (specTagVenueNonEmpty paper).1 (specTagVenueNonEmpty paper).2
          (citationTail paper)) := by
  have h := usedTagVenue_step2 paper harxiv hname
  refine ⟨h, ?_⟩
  obtain ⟨authors, hA, hG⟩ := generateGBT7714_assemble toUpperCase paper
  exact ⟨authors, hA, by rw [hG, h]⟩

/-- C2, amended, at a conference paper with an empty venue field. -/
theorem usedTagVenue_spec_witness :
    usedTagVenue conferenceEmptyVenue = (utf16 "[C]", utf16 "Conference Proceedings") ∧
    ∃ authors, authorsText asciiUpperCase conferenceEmptyVenue = .ok authors ∧
      generateGBT7714 asciiUpperCase conferenceEmptyVenue = .ok
        (assemble authors conferenceEmptyVenue (utf16 "[C]") (utf16 "Conference Proceedings")
          (utf16 ".")) :=
  usedTagVenue_spec asciiUpperCase conferenceEmptyVenue (by decide) (by decide)

/-- C3 fails as stated. A conference paper whose `externalIds.ArXiv` is present and
is the empty string keeps the tag `[C]` and the venue "NeurIPS". -/
theorem arxiv_override_counterexample :
    arxivValue neuripsEmptyArxiv = some (utf16 "") ∧
    usedTagVenue neuripsEmptyArxiv = (utf16 "[C]", utf16 "NeurIPS") ∧
    usedTagVenue neuripsEmptyArxiv ≠ (utf16 "[J]", utf16 "arXiv preprint arXiv:" ++ utf16 "") ∧
    generateGBT7714 asciiUpperCase neuripsEmptyArxiv = .ok (utf16 "佚名. T[C]. NeurIPS.") := by
  decide

/-- C3, amended. For a record whose `externalIds.ArXiv` is present with a non-empty
value `id`, the tag is `[J]` and the venue is "arXiv preprint arXiv:" followed by
`id`, whatever publicationTypes, venue and journal hold. -/
theorem arxiv_override (toUpperCase : JSString → JSString) (paper : Paper) (id : JSString)
    (hid : arxivValue paper = some id) (hne : id ≠ []) :
    usedTagVenue paper = (utf16 "[J]", utf16 "arXiv preprint arXiv:" ++ id) ∧
    ∃ authors, authorsText toUpperCase paper = .ok authors ∧
      generateGBT7714 toUpperCase paper = .ok
        (assemble authors paper (utf16 "[J]") (utf16 "arXiv preprint arXiv:" ++ id)
          (citationTail paper)) := by
  have h : usedTagVenue paper = (utf16 "[J]", utf16 "arXiv preprint arXiv:" ++ id) := by
    unfold arxivValue at hid
    unfold usedTagVenue typeAndPublicationFinal arxivId
    cases hids : paper.externalIds with
    | undefined => simp [hids] at hid
    | null => simp [hids] at hid
    | val ids =>
      simp only [hids] at hid
      cases hA : ids.ArXiv with
      | undefined => simp [hA] at hid
      | null => simp [hA] at hid
      | val a =>
        simp only [hA, Option.some.injEq] at hid
        subst hid
        simp [hA, truthyStr, interpStr, hne]
  refine ⟨h, ?_⟩
  obtain ⟨authors, hA, hG⟩ := generateGBT7714_assemble toUpperCase paper
  exact ⟨authors, hA, by rw [hG, h]⟩

/-- C3, amended, at the conference paper with arXiv identifier 2101.00001: the
citation carries `[J]` and the arXiv venue, not `[C]` or "NeurIPS". -/
theorem arxiv_override_witness :
    generateGBT7714 asciiUpperCase neuripsOnArxiv =
      .ok (utf16 "佚名. T[J]. arXiv preprint arXiv:2101.00001.") ∧
    usedTagVenue neuripsOnArxiv =
      (utf16 "[J]", utf16 "arXiv preprint arXiv:" ++ utf16 "2101.00001") ∧
    ∃ authors, authorsText asciiUpperCase neuripsOnArxiv = .ok authors ∧
      generateGBT7714 asciiUpperCase neuripsOnArxiv = .ok
        (assemble authors neuripsOnArxiv (utf16 "[J]")
          (utf16 "arXiv preprint arXiv:" ++ utf16 "2101.00001") (citationTail neuripsOnArxiv)) :=
  ⟨by decide, arxiv_override asciiUpperCase neuripsOnArxiv (utf16 "2101.00001") rfl (by decide)⟩

theorem citationTail_eq_spec (paper : Paper) :
    citationTail paper = specCitationTail (falsyAsAbsent paper) := by
  have hyear : (if paper.year.truthyNum then utf16 ", " ++ paper.year.interpNum else []) =
      (match (falsyAsAbsent paper).year with
       | val y => utf16 ", " ++ numberToString y
       | _ => []) := by
    unfold falsyAsAbsent
    cases hy : paper.year with
    | undefined => simp [truthyNum, zeroAsAbsent]
    | null => simp [truthyNum, zeroAsAbsent]
    | val y => by_cases h0 : y = 0 <;> simp [truthyNum, interpNum, zeroAsAbsent, h0]
  have hblank : ∀ f : JSField JSString, ∀ a b : JSString,
      (if f.truthyStr then a ++ f.interpStr ++ b else []) =
      (match blankAsAbsent f with
       | val v => a ++ v ++ b
       | _ => []) := by
    intro f a b
    cases f with
    | undefined => simp [truthyStr, blankAsAbsent]
    | null => simp [truthyStr, blankAsAbsent]
    | val s => by_cases hs : s = [] <;> simp [truthyStr, blankAsAbsent, interpStr, hs]
  have hjournal : (match paper.journal with
      | val j =>
        if j.volume.truthyStr then
          utf16 ", " ++ j.volume.interpStr ++
            (if j.pages.truthyStr then utf16 ": " ++ j.pages.interpStr else [])
        else []
      | _ => []) =
      (match (falsyAsAbsent paper).journal with
       | val j =>
         match j.volume with
         | val v =>
           utf16 ", " ++ v ++
             (match j.pages with
              | val pg => utf16 ": " ++ pg
              | _ => [])
         | _ => []
       | _ => []) := by
    unfold falsyAsAbsent
    cases hj : paper.journal with
    | undefined => simp [journalBlanksAsAbsent]
    | null => simp [journalBlanksAsAbsent]
    | val j =>
      simp only [journalBlanksAsAbsent]
      have hp := hblank j.pages (utf16 ": ") []
      simp only [List.append_nil] at hp
      rw [hp, hblank j.volume]
  unfold citationTail specCitationTail
  rw [hyear, hjournal]

theorem falsyAsAbsent_eq_self (paper : Paper) (hyear : paper.year ≠ val 0)
    (hjournal : ∀ j, paper.journal = val j → j.volume ≠ val [] ∧ j.pages ≠ val []) :
    falsyAsAbsent paper = paper := by
  have hy : zeroAsAbsent paper.year = paper.year := by
    cases h : paper.year with
    | undefined => rfl
    | null => rfl
    | val y =>
      have : y ≠ 0 := fun h0 => hyear (by rw [h, h0])
      simp [zeroAsAbsent, this]
  have hb : ∀ f : JSField JSString, f ≠ val [] → blankAsAbsent f = f := by
    intro f hf
    cases f with
    | undefined => rfl
    | null => rfl
    | val s =>
      have : s ≠ [] := fun h => hf (by rw [h])
      simp [blankAsAbsent, this]
  have hj : journalBlanksAsAbsent paper.journal = paper.journal := by
    cases h : paper.journal with
    | undefined => rfl
    | null => rfl
    | val j =>
      obtain ⟨h1, h2⟩ := hjournal j h
      simp [journalBlanksAsAbsent, hb _ h1, hb _ h2]
  unfold falsyAsAbsent
  rw [hy, hj]

/-- C6 fails as stated. A year of 0 is present but no year segment is appended; an
empty volume string is present but neither a volume nor a pages segment is
appended. -/
theorem specCitationTail_counterexample :
    (citationTail yearZero = utf16 "." ∧
      specCitationTail yearZero = utf16 ", 0." ∧
      citationTail yearZero ≠ specCitationTail yearZero ∧
      generateGBT7714 asciiUpperCase yearZero = .ok (utf16 "佚名. T[J]. .")) ∧
    (citationTail emptyVolume = utf16 ", 2020." ∧
      specCitationTail emptyVolume = utf16 ", 2020, : 100-110." ∧
      citationTail emptyVolume ≠ specCitationTail emptyVolume ∧
      generateGBT7714 asciiUpperCase emptyVolume = .ok (utf16 "佚名. T[J]. , 2020.")) := by
  decide

/-- C6, amended. With a year of 0 and an empty volume or pages string regarded as
absent, the citation ends, after the venue, with ", year" when the year is present,
then ", volume" when `journal.volume` is present, followed by ": pages" exactly when
volume and pages are both present, then "."; on a record without such values this
is the tail as the specification words it. -/
theorem citationTail_spec (toUpperCase : JSString → JSString) (paper : Paper) :
    (∃ authors, authorsText toUpperCase paper = .ok authors ∧
      generateGBT7714 toUpperCase paper = .ok
        (assemble authors paper (usedTagVenue paper).1 (usedTagVenue paper).2
          (specCitationTail (falsyAsAbsent paper)))) ∧
    (paper.year ≠ val 0 →
      (∀ j, paper.journal = val j → j.volume ≠ val [] ∧ j.pages ≠ val []) →
      citationTail paper = specCitationTail paper) ∧
    citationTail volumeAndPages = utf16 ", 12: 100-110" ++ utf16 "." ∧
    citationTail pagesOnly = utf16 "." := by
  refine ⟨?_, ?_, by decide, by decide⟩
  · obtain ⟨authors, hA, hG⟩ := generateGBT7714_assemble toUpperCase paper
    exact ⟨authors, hA, by rw [hG, citationTail_eq_spec]⟩
  · intro hy hj
    rw [citationTail_eq_spec, falsyAsAbsent_eq_self paper hy hj]

/-- C6, amended, at a record with year 2020, volume 12 and pages 100-110. -/
theorem citationTail_spec_witness :
    citationTail { volumeAndPages with year := val 2020 } =
      specCitationTail { volumeAndPages with year := val 2020 } ∧
    generateGBT7714 asciiUpperCase { volumeAndPages with year := val 2020 } =
      .ok (utf16 "佚名. T[J]. , 2020, 12: 100-110.") :=
  ⟨(citationTail_spec asciiUpperCase { volumeAndPages with year := val 2020 }).2.1
    (by decide) (by intro j hj; cases hj; decide), by decide⟩

/-! ## Mirror search URL -/

theorem isUnescaped_lt (c : Nat) (h : isUnescaped c = true) : c < 0x80 := by
  simp only [isUnescaped, Bool.or_eq_true, Bool.and_eq_true, decide_eq_true_eq,
    beq_iff_eq] at h
  omega

theorem char_toNat_valid (ch : Char) :
    ch.toNat < 0xD800 ∨ (0xDFFF < ch.toNat ∧ ch.toNat < 0x110000) := by
  have h := ch.valid
  simpa [UInt32.isValidChar, Nat.isValidChar, Char.toNat] using h

theorem encodeURIComponent_cons (c : Nat) (cs : JSString) :
    encodeURIComponent (c :: cs) =
    (if isUnescaped c then
      match encodeURIComponent cs with
      | .ok r => .ok (c :: r)
      | .error e => .error e
    else if isLeadSurrogate c then
      match cs with
      | [] => .error uriErrorMessage
      | d :: ds =>
        if isTrailSurrogate d then
          match encodeURIComponent ds with
          | .ok r => .ok (escapeCodePoint ((c - 0xD800) * 0x400 + (d - 0xDC00) + 0x10000) ++ r)
          | .error e => .error e
        else .error uriErrorMessage
    else if isTrailSurrogate c then .error uriErrorMessage
    else
      match encodeURIComponent cs with
      | .ok r => .ok (escapeCodePoint c ++ r)
      | .error e => .error e) := by
  cases cs <;> rfl

theorem encodeURIComponent_utf16Char (ch : Char) (rest : JSString) :
    encodeURIComponent (utf16Char ch.toNat ++ rest) =
      match encodeURIComponent rest with
      | .ok r => .ok ((if isUnescaped ch.toNat then [ch.toNat]
          else (utf8Octets ch.toNat).flatMap percentEscape) ++ r)
      | .error e => .error e := by
  have hv := char_toNat_valid ch
  generalize ch.toNat = n at hv
  by_cases hbmp : n < 0x10000
  · have hu : utf16Char n = [n] := by simp [utf16Char, hbmp]
    rw [hu, List.singleton_append]
    rw [encodeURIComponent_cons]
    by_cases hun : isUnescaped n = true
    · simp only [hun, if_true]
      cases encodeURIComponent rest <;> simp
    · have hl : isLeadSurrogate n = false := by
        simp only [isLeadSurrogate, Bool.and_eq_false_iff, decide_eq_false_iff_not]
        omega
      have ht : isTrailSurrogate n = false := by
        simp only [isTrailSurrogate, Bool.and_eq_false_iff, decide_eq_false_iff_not]
        omega
      simp only [hun, hl, ht, escapeCodePoint]
      cases encodeURIComponent rest <;> simp
  · obtain ⟨hi, hhi⟩ : ∃ hi, hi = 0xD800 + (n - 0x10000) / 0x400 := ⟨_, rfl⟩
    obtain ⟨lo, hlo⟩ : ∃ lo, lo = 0xDC00 + (n - 0x10000) % 0x400 := ⟨_, rfl⟩
    have hu : utf16Char n = [hi, lo] := by
      rw [hhi, hlo, utf16Char, if_neg hbmp]
    have hun : isUnescaped n = false := by
      cases h : isUnescaped n with
      | false => rfl
      | true => have := isUnescaped_lt n h; omega
    have hun2 : isUnescaped hi = false := by
      cases h : isUnescaped hi with
      | false => rfl
      | true => have := isUnescaped_lt _ h; omega
    have hl : isLeadSurrogate hi = true := by
      simp only [isLeadSurrogate, Bool.and_eq_true, decide_eq_true_eq]
      omega
    have ht : isTrailSurrogate lo = true := by
      simp only [isTrailSurrogate, Bool.and_eq_true, decide_eq_true_eq]
      omega
    have hcp : (hi - 0xD800) * 0x400 + (lo - 0xDC00) + 0x10000 = n := by
      omega
    clear hhi hlo
    rw [hu, List.cons_append, List.cons_append, List.nil_append]
    rw [encodeURIComponent_cons]
    simp only [hun2, hl, ht, hcp, hun, escapeCodePoint, if_true]
    cases encodeURIComponent rest <;> simp

theorem encodeURIComponent_utf16 (text : String) :
    encodeURIComponent (utf16 text) = .ok (percentEncode text) := by
  unfold utf16 percentEncode
  induction text.toList with
  | nil => rfl
  | cons ch chs ih =>
    rw [List.flatMap_cons, encodeURIComponent_utf16Char, ih]
    simp

/-- C10. For every base URL and every query text, `openMirrorSearch` opens the base
URL followed by "/scholar?q=" and the percent-encoded query: each character outside
the unreserved set is replaced by the `%XX` escapes of its UTF-8 bytes. The base
"https://x.org" and the query "graph neural nets" give
"https://x.org/scholar?q=graph%20neural%20nets", and the query "佚名 𝒜" is encoded
as "%E4%BD%9A%E5%90%8D%20%F0%9D%92%9C". -/
theorem openMirrorSearch_url :
    (∀ (currentMirror : JSString) (query : String),
      openMirrorSearch currentMirror (utf16 query) =
        .ok (currentMirror ++ utf16 "/scholar?q=" ++ percentEncode query)) ∧
    openMirrorSearch (utf16 "https://x.org") (utf16 "graph neural nets") =
      .ok (utf16 "https://x.org/scholar?q=graph%20neural%20nets") ∧
    openMirrorSearch (utf16 "https://x.org") (utf16 "佚名 𝒜") =
      .ok (utf16 "https://x.org/scholar?q=%E4%BD%9A%E5%90%8D%20%F0%9D%92%9C") := by
  refine ⟨?_, by decide, by decide⟩
  intro currentMirror query
  simp only [openMirrorSearch, encodeURIComponent_utf16]

/-- On a string with an unpaired surrogate `encodeURIComponent` throws, and
`openMirrorSearch` opens no window. -/
theorem openMirrorSearch_unpaired_surrogate :
    openMirrorSearch (utf16 "https://x.org") [0xD800] = .error uriErrorMessage := by
  decide

/-! ## Mirror settings -/

theorem endsWith_iff (s p : JSString) : endsWith s p = true ↔ ∃ t, s = t ++ p := by
  unfold endsWith
  rw [List.isSuffixOf_iff_suffix]
  constructor
  · rintro ⟨t, ht⟩; exact ⟨t, ht.symm⟩
  · rintro ⟨t, ht⟩; exact ⟨t, ht.symm⟩

theorem startsWith_iff (s p : JSString) : startsWith s p = true ↔ ∃ t, s = p ++ t := by
  unfold startsWith
  rw [List.isPrefixOf_iff_prefix]
  constructor
  · rintro ⟨t, ht⟩; exact ⟨t, ht.symm⟩
  · rintro ⟨t, ht⟩; exact ⟨t, ht.symm⟩

theorem dropTrailingSlash_no_slash (u : JSString) (h : endsWith u (utf16 "//") = false) :
    endsWith (dropTrailingSlash u) (utf16 "/") = false := by
  unfold dropTrailingSlash
  by_cases h1 : endsWith u (utf16 "/") = true
  · rw [if_pos h1]
    obtain ⟨t, ht⟩ := (endsWith_iff _ _).1 h1
    have e1 : utf16 "/" = [47] := by decide
    rw [ht, e1, List.dropLast_concat]
    cases h2 : endsWith t [47] with
    | false => rfl
    | true =>
      obtain ⟨t2, ht2⟩ := (endsWith_iff _ _).1 h2
      have : endsWith u (utf16 "//") = true := by
        rw [endsWith_iff]
        refine ⟨t2, ?_⟩
        have e2 : utf16 "//" = [47, 47] := by decide
        rw [ht, ht2, e1, e2]
        simp
      rw [this] at h
      exact absurd h (by simp)
  · rw [if_neg h1]
    simpa using h1

theorem dropTrailingSlash_startsWith (u p : JSString) (hp : startsWith u p = true)
    (hne : endsWith u (utf16 "/") = true → u ≠ p) :
    startsWith (dropTrailingSlash u) p = true := by
  unfold dropTrailingSlash
  by_cases h1 : endsWith u (utf16 "/") = true
  · rw [if_pos h1]
    obtain ⟨r, hr⟩ := (startsWith_iff _ _).1 hp
    have hr0 : r ≠ [] := by
      intro h0
      apply hne h1
      rw [hr, h0, List.append_nil]
    rw [hr, List.dropLast_append_of_ne_nil _ hr0, startsWith_iff]
    exact ⟨_, rfl⟩
  · rw [if_neg h1]
    exact hp

theorem withScheme_eq (t : JSString) :
    withScheme t = if startsWith t (utf16 "http") = true then t else utf16 "https://" ++ t := by
  unfold withScheme
  cases startsWith t (utf16 "http") <;> simp

theorem withScheme_http (t : JSString) : startsWith (withScheme t) (utf16 "http") = true := by
  rw [withScheme_eq]
  by_cases h : startsWith t (utf16 "http") = true
  · rw [if_pos h]; exact h
  · rw [if_neg h, startsWith_iff]
    have : utf16 "https://" = utf16 "http" ++ utf16 "s://" := by decide
    exact ⟨utf16 "s://" ++ t, by rw [this, List.append_assoc]⟩

theorem dropTrailingSlash_slash (u : JSString) (h : endsWith u (utf16 "//") = true) :
    endsWith (dropTrailingSlash u) (utf16 "/") = true := by
  obtain ⟨t, ht⟩ := (endsWith_iff _ _).1 h
  have e1 : utf16 "/" = [47] := by decide
  have e2 : utf16 "//" = [47, 47] := by decide
  have hu : u = (t ++ [47]) ++ [47] := by rw [ht, e2]; simp
  have h1 : endsWith u (utf16 "/") = true := by
    rw [endsWith_iff, e1]; exact ⟨_, hu⟩
  unfold dropTrailingSlash
  rw [if_pos h1, hu, List.dropLast_concat, endsWith_iff, e1]
  exact ⟨t, rfl⟩

/-- C9 at entries the handler can receive. "example.com//" is stored as
"https://example.com/", which still ends with a slash although the comment of line
51 says the trailing slash is removed; the empty entry is stored as "https:/", with
a trailing slash and no complete scheme; "httpfoo.com" passes the test
`startsWith('http')` and is stored without any scheme. -/
theorem saveSettings_not_normalized :
    (saveSettings (utf16 "example.com//") = utf16 "https://example.com/" ∧
      endsWith (saveSettings (utf16 "example.com//")) (utf16 "/") = true) ∧
    (saveSettings (utf16 "") = utf16 "https:/" ∧
      endsWith (saveSettings (utf16 "")) (utf16 "/") = true ∧
      startsWith (saveSettings (utf16 "")) (utf16 "http://") = false ∧
      startsWith (saveSettings (utf16 "")) (utf16 "https://") = false) ∧
    (saveSettings (utf16 "httpfoo.com") = utf16 "httpfoo.com" ∧
      startsWith (saveSettings (utf16 "httpfoo.com")) (utf16 "http://") = false ∧
      startsWith (saveSettings (utf16 "httpfoo.com")) (utf16 "https://") = false) := by
  decide

/-- Where the handler does normalize. The stored address always begins with "http".
It ends with a slash exactly when the trimmed entry, after the "https://" has been
added where the entry does not start with "http", ends with two slashes. It begins
with "http://" or "https://" whenever that trimmed and completed entry is not the
bare "http://" or "https://" and the trimmed entry does not start with "http" or
starts with "http://" or "https://". -/
theorem saveSettings_normalized (input : JSString) :
    startsWith (saveSettings input) (utf16 "http") = true ∧
    endsWith (saveSettings input) (utf16 "/") =
      endsWith (withScheme (trim input)) (utf16 "//") ∧
    (withScheme (trim input) ≠ utf16 "http://" →
      withScheme (trim input) ≠ utf16 "https://" →
      (startsWith (trim input) (utf16 "http") = false ∨
        startsWith (trim input) (utf16 "http://") = true ∨
        startsWith (trim input) (utf16 "https://") = true) →
      (startsWith (saveSettings input) (utf16 "http://") = true ∨
        startsWith (saveSettings input) (utf16 "https://") = true)) := by
  unfold saveSettings
  generalize trim input = t
  refine ⟨?_, ?_, fun hne1 hne2 hscheme => ?_⟩
  · apply dropTrailingSlash_startsWith _ _ (withScheme_http t)
    intro h1 h2
    rw [h2] at h1
    exact absurd h1 (by decide)
  · cases h : endsWith (withScheme t) (utf16 "//") with
    | false => exact dropTrailingSlash_no_slash _ h
    | true => exact dropTrailingSlash_slash _ h
  · have hu : startsWith (withScheme t) (utf16 "http://") = true ∨
        startsWith (withScheme t) (utf16 "https://") = true := by
      rw [withScheme_eq]
      by_cases h : startsWith t (utf16 "http") = true
      · rw [if_pos h]
        rcases hscheme with h0 | h1 | h2
        · rw [h] at h0; exact absurd h0 (by simp)
        · exact Or.inl h1
        · exact Or.inr h2
      · rw [if_neg h]
        exact Or.inr ((startsWith_iff _ _).2 ⟨t, rfl⟩)
    rcases hu with h | h
    · exact Or.inl (dropTrailingSlash_startsWith _ _ h (fun _ => hne1))
    · exact Or.inr (dropTrailingSlash_startsWith _ _ h (fun _ => hne2))

/-- At the entries " scholar.example.org/ " and "example.com//": the first is stored
without trailing slash and with its scheme; the second keeps its scheme. -/
theorem saveSettings_normalized_witness :
    saveSettings (utf16 " scholar.example.org/ ") = utf16 "https://scholar.example.org" ∧
    endsWith (saveSettings (utf16 " scholar.example.org/ ")) (utf16 "/") = false ∧
    (startsWith (saveSettings (utf16 " scholar.example.org/ ")) (utf16 "http://") = true ∨
      startsWith (saveSettings (utf16 " scholar.example.org/ ")) (utf16 "https://") = true) ∧
    (startsWith (saveSettings (utf16 "example.com//")) (utf16 "http://") = true ∨
      startsWith (saveSettings (utf16 "example.com//")) (utf16 "https://") = true) :=
  ⟨by decide,
   (saveSettings_normalized (utf16 " scholar.example.org/ ")).2.1.trans (by decide),
   (saveSettings_normalized (utf16 " scholar.example.org/ ")).2.2 (by decide) (by decide)
     (Or.inl (by decide)),
   (saveSettings_normalized (utf16 "example.com//")).2.2 (by decide) (by decide)
     (Or.inl (by decide))⟩

/-! ## handleSearch -/

theorem handleSearch_started (toUpperCase : JSString → JSString)
    (fetch : JSString → FetchResult) (panel : Panel) (query : JSString)
    (hguard : 2 ≤ (trim query).length) :
    handleSearch toUpperCase fetch panel query =
      match searchAttempt toUpperCase fetch
        (showStatus { panel with results := [] }
          (utf16 "正在检索各大数据库 (S2, CrossRef)...") false) query with
      | (done, none) => done
      | (failed, some message) =>
        renderNoResultFallback { failed with status := .errorSpan message } query := by
  have hq : query.isEmpty = false := by
    cases query with
    | nil => simp [trim] at hguard
    | cons c cs => rfl
  have hlen : ¬ (trim query).length < 2 := by omega
  simp [handleSearch, hq, hlen]

/-- C8. For a query that passes the length guard and whose request is made: when
the response has status 429, or another status outside 200-299, or the request
fails without a response, the panel shows the failure message (the rate-limit
message, the service-unavailable message, the underlying message) and the results
area holds exactly the mirror-search fallback for that query; when the response is
a success whose `data` is absent or empty, the status area is cleared and the
results area holds exactly that fallback. In each case `handleSearch` completes
with a panel, and the fallback opens the mirror search for the same query. -/
theorem handleSearch_fallback (toUpperCase : JSString → JSString)
    (fetch : JSString → FetchResult) (panel : Panel) (query encoded : JSString)
    (hguard : 2 ≤ (trim query).length)
    (hencoded : encodeURIComponent query = .ok encoded) :
    (∀ body, fetch (apiUrl encoded) = .response 429 body →
      handleSearch toUpperCase fetch panel query =
        { statusClass := utf16 "status-msg", status := .errorSpan rateLimitedMessage,
          results := [.noResultFallback query] }) ∧
    (∀ status body, fetch (apiUrl encoded) = .response status body →
      responseOk status = false → status ≠ 429 →
      handleSearch toUpperCase fetch panel query =
        { statusClass := utf16 "status-msg", status := .errorSpan unavailableMessage,
          results := [.noResultFallback query] }) ∧
    (∀ message, fetch (apiUrl encoded) = .rejected message →
      handleSearch toUpperCase fetch panel query =
        { statusClass := utf16 "status-msg", status := .errorSpan message,
          results := [.noResultFallback query] }) ∧
    (∀ status data, fetch (apiUrl encoded) = .response status (.object data) →
      responseOk status = true → (data.present = false ∨ data = val []) →
      handleSearch toUpperCase fetch panel query =
        { statusClass := utf16 "status-msg", status := .empty,
          results := [.noResultFallback query] }) ∧
    (∀ currentMirror, (Widget.noResultFallback query).openMirror currentMirror =
      .ok (currentMirror ++ utf16 "/scholar?q=" ++ encoded)) := by
  have hstart := handleSearch_started toUpperCase fetch panel query hguard
  refine ⟨?_, ?_, ?_, ?_, ?_⟩
  · intro body hfetch
    rw [hstart]
    simp [searchAttempt, hencoded, hfetch, responseOk, renderNoResultFallback, showStatus]
  · intro status body hfetch hok hne
    rw [hstart]
    simp [searchAttempt, hencoded, hfetch, hok, hne, renderNoResultFallback, showStatus]
  · intro message hfetch
    rw [hstart]
    simp [searchAttempt, hencoded, hfetch, renderNoResultFallback, showStatus]
  · intro status data hfetch hok hdata
    rw [hstart]
    rcases hdata with h | h
    · cases data with
      | val d => simp [present] at h
      | undefined =>
        simp [searchAttempt, hencoded, hfetch, hok, renderNoResultFallback, showStatus]
      | null =>
        simp [searchAttempt, hencoded, hfetch, hok, renderNoResultFallback, showStatus]
    · subst h
      simp [searchAttempt, hencoded, hfetch, hok, renderNoResultFallback, showStatus]
  · intro currentMirror
    simp [Widget.openMirror, openMirrorSearch, hencoded]

/-- C8 at the query "graph neural nets" on a network that answers 429. -/
theorem handleSearch_fallback_witness :
    handleSearch asciiUpperCase alwaysRateLimited blankPanel (utf16 "graph neural nets") =
      { statusClass := utf16 "status-msg", status := .errorSpan rateLimitedMessage,
        results := [.noResultFallback (utf16 "graph neural nets")] } :=
  (handleSearch_fallback asciiUpperCase alwaysRateLimited blankPanel
    (utf16 "graph neural nets") (utf16 "graph%20neural%20nets")
    (by decide) (by decide)).1 (.malformed []) rfl

end PaperPro
